import Mathlib

/-!
Verification of the seedkey-browser-extension signing core.

This file shallowly embeds the security-relevant parts of the extension:
the replay guard and rate limiter of `src/utils/secureStorage.ts`, the
domain normalization and key-derivation entry points of
`src/utils/crypto.ts`, the legacy device-key store of
`src/utils/deviceKey.ts`, and the background signing pipeline of the
background entry point (`handleSignChallenge` / `handleSignMessage`).

JavaScript objects and `Map`s are embedded as insertion-ordered
association lists (string keys appended on first assignment, updated in
place on re-assignment; `Object.entries` iterates in insertion order for
the non-numeric keys used here).  Timestamps (`Date.now()`) are passed
explicitly as `Nat` arguments.  WebCrypto / noble primitives (PBKDF2,
AES-GCM, Ed25519, NFKD normalization) are not part of the repository;
they are abstracted as function-valued parameters (`CryptoPrims`,
`SignDeps`) while every branch, constant and storage interaction of the
repository's own code is embedded faithfully.
-/

namespace SeedKey

/-- Insertion-ordered association-list lookup (JS `obj[k]` / `Map.get`). -/
def getA {α : Type} (m : List (String × α)) (k : String) : Option α :=
  match m with
  | [] => none
  | (k₂, v) :: rest => if k₂ = k then some v else getA rest k

/-- Insertion-ordered association-list assignment (JS `obj[k] = v` /
`Map.set`): an existing key keeps its position, a new key is appended. -/
def setA {α : Type} (m : List (String × α)) (k : String) (v : α) : List (String × α) :=
  match m with
  | [] => [(k, v)]
  | (k₂, v₂) :: rest => if k₂ = k then (k, v) :: rest else (k₂, v₂) :: setA rest k v

/-- Nonce lifetime in milliseconds (`NONCE_EXPIRY_MS = 10 * 60 * 1000`). -/
def NONCE_EXPIRY_MS : Nat := 10 * 60 * 1000

/-- Maximum number of stored nonces (`MAX_STORED_NONCES = 1000`). -/
def MAX_STORED_NONCES : Nat := 1000

/-- The cleanup loop of `validateAndStoreNonce`: iterates over the
entries of the used-nonce object in insertion order and keeps an entry
exactly when it is fresh (`now - timestamp < NONCE_EXPIRY_MS`) and fewer
than `MAX_STORED_NONCES` entries have been kept so far.  (With JS
numbers a timestamp in the future gives a negative difference, which is
also `< NONCE_EXPIRY_MS`; truncated `Nat` subtraction yields `0` there,
so the branch taken is the same.) -/
def pruneNonces : List (String × Nat) → Nat → Nat → List (String × Nat)
  | [], _, _ => []
  | (k, t) :: rest, now, count =>
    if now - t < NONCE_EXPIRY_MS ∧ count < MAX_STORED_NONCES then
      (k, t) :: pruneNonces rest now (count + 1)
    else
      pruneNonces rest now count

/-- `validateAndStoreNonce` from `src/utils/secureStorage.ts`.  The map
of used nonces is passed in and the updated map returned (the source
loads/stores it via `browser.storage.local` under one fixed key).  The
presence test is the JS truthiness check `if (usedNonces[nonce])`, so a
stored timestamp `0` would count as absent, exactly as in the source. -/
def validateAndStoreNonce (usedNonces : List (String × Nat)) (nonce : String)
    (now : Nat) : Bool × List (String × Nat) :=
  if (getA usedNonces nonce).getD 0 ≠ 0 then
    (false, usedNonces)
  else
    (true, setA (pruneNonces usedNonces now 0) nonce now)

/-- Per-domain rate-limit record (`RateLimitEntry`). -/
structure RateLimitEntry where
  count : Nat
  windowStart : Nat
deriving DecidableEq, Repr

/-- Rate-limit window size in milliseconds (`RATE_LIMIT_WINDOW_MS`). -/
def RATE_LIMIT_WINDOW_MS : Nat := 60000

/-- Maximum signature requests per window (`MAX_REQUESTS_PER_WINDOW`). -/
def MAX_REQUESTS_PER_WINDOW : Nat := 30

/-- `checkRateLimit` from `src/utils/secureStorage.ts`.  The in-memory
`rateLimitMap` is passed in and returned explicitly.  A missing entry or
one whose window started strictly more than `RATE_LIMIT_WINDOW_MS` ago
starts a fresh window with count 1; otherwise the call is rejected once
the count has reached `MAX_REQUESTS_PER_WINDOW`, else the count is
incremented in place. -/
def checkRateLimit (m : List (String × RateLimitEntry)) (domain : String)
    (now : Nat) : Bool × List (String × RateLimitEntry) :=
  match getA m domain with
  | none => (true, setA m domain ⟨1, now⟩)
  | some entry =>
    if now - entry.windowStart > RATE_LIMIT_WINDOW_MS then
      (true, setA m domain ⟨1, now⟩)
    else if entry.count ≥ MAX_REQUESTS_PER_WINDOW then
      (false, m)
    else
      (true, setA m domain ⟨entry.count + 1, entry.windowStart⟩)

/-- A sequence of `checkRateLimit` calls for one domain at the given
times, threading the map through and collecting the returned booleans. -/
def runRateCalls (m : List (String × RateLimitEntry)) (domain : String) :
    List Nat → List Bool × List (String × RateLimitEntry)
  | [] => ([], m)
  | t :: ts =>
    let r := checkRateLimit m domain t
    let rs := runRateCalls r.snd domain ts
    (r.fst :: rs.fst, rs.snd)

/-- Whether a character list starts with the given pattern. -/
def listStartsWith : List Char → List Char → Bool
  | _, [] => true
  | [], _ :: _ => false
  | c :: cs, p :: ps => c = p && listStartsWith cs ps

/-- The part of a character list after the last occurrence of `c` (the
whole list when `c` does not occur). -/
def afterLastChar (c : Char) (cs : List Char) : List Char :=
  ((cs.reverse.takeWhile (fun c₂ => c₂ ≠ c)).reverse)

/-- The part of a string after its first `"://"`, if any (the input of
the `URL` constructor in `normalizeDomain`: a bare host gets `https://`
prepended, so the part after the scheme is the original input). -/
def schemeRest : List Char → Option (List Char)
  | ':' :: '/' :: '/' :: rest => some rest
  | _ :: rest => schemeRest rest
  | [] => none

/-- Hostname extraction of the platform `URL` parser, modelled for the
well-formed `http(s)`-style inputs this extension handles: the
authority is everything up to the first `/`, `?` or `#`; an optional
`userinfo@` part is dropped; an optional `:port` suffix is dropped;
`URL.hostname` is lowercase.  (Punycode/IPv6 handling and the inputs on
which `new URL` throws are outside the model; the `catch` fallback of
the source is therefore not reachable here.) -/
def urlHostname (s : List Char) : List Char :=
  let authority := s.takeWhile (fun c => c ≠ '/' && c ≠ '?' && c ≠ '#')
  let hostPort := afterLastChar '@' authority
  (hostPort.takeWhile (fun c => c ≠ ':')).map Char.toLower

/-- The `.replace(/^www\./, '')` step of `normalizeDomain` (applied to
the already-lowercased hostname). -/
def stripWww (s : List Char) : List Char :=
  if listStartsWith s "www.".toList then s.drop 4 else s

/-- `normalizeDomain` from `src/utils/crypto.ts`: parse as a URL
(prepending `https://` when no scheme is present), take the hostname,
strip a leading `www.`, lowercase. -/
def normalizeDomain (domain : String) : String :=
  let rest :=
    match schemeRest domain.toList with
    | some r => r
    | none => domain.toList
  String.mk ((stripWww (urlHostname rest)).map Char.toLower)

/-- The challenge object (`Challenge` in `src/utils/types.ts`).  The
`action` field is kept as a raw string so that the Zod enum check is
part of validation, as in the source. -/
structure Challenge where
  nonce : String
  timestamp : Int
  domain : String
  action : String
  expiresAt : Int
deriving DecidableEq, Repr

/-- Success of `ChallengeSchema.safeParse`: nonce and domain nonempty,
timestamp and expiresAt positive integers, action one of the two enum
values. -/
def challengeSchemaOk (c : Challenge) : Bool :=
  decide (1 ≤ c.nonce.length) && decide (0 < c.timestamp) &&
  decide (1 ≤ c.domain.length) &&
  (c.action = "register" || c.action = "authenticate") &&
  decide (0 < c.expiresAt)

/-- The error codes of `ErrorCodes` in `src/utils/types.ts`. -/
inductive ErrorCode where
  | EXTENSION_NOT_FOUND
  | NOT_INITIALIZED
  | USER_REJECTED
  | INVALID_CHALLENGE
  | CHALLENGE_EXPIRED
  | DOMAIN_MISMATCH
  | NONCE_ALREADY_USED
  | INVALID_SEED
  | ENCRYPTION_ERROR
  | DECRYPTION_ERROR
  | USER_EXISTS
  | RATE_LIMIT_EXCEEDED
  | SESSION_EXPIRED
  | INTERNAL_ERROR
  | UNKNOWN_ACTION
deriving DecidableEq, Repr

/-- A typed error (`SeedKeyError`). -/
structure SeedKeyError where
  code : ErrorCode
  message : String
deriving DecidableEq, Repr

/-- Result of `handleSignChallenge` / `handleSignMessage` (`SignResult`). -/
inductive SignResult where
  | success (signature : String) (publicKey : String)
  | failure (error : SeedKeyError)
deriving DecidableEq, Repr

/-- The error code carried by a failed `SignResult`, if any. -/
def SignResult.errCode : SignResult → Option ErrorCode
  | .success _ _ => none
  | .failure e => some e.code

/-- The site keypair produced by `getSiteKeyPair` in the background
script. -/
structure SiteKeyPairB64 where
  privateKey : List Nat
  publicKey : List Nat
  publicKeyBase64 : String

/-- The cryptographic tail of the signing pipeline, abstracted:
`keyPairFor` stands for `getSiteKeyPair` (master-key decryption plus
HKDF/Ed25519 key derivation, `none` on failure, exactly the two
outcomes the pipeline distinguishes), and the two signing functions
stand for the noble-Ed25519 signing primitives of `src/utils/crypto.ts`. -/
structure SignDeps where
  keyPairFor : String → Option SiteKeyPairB64
  signChallengeB64 : Challenge → List Nat → String
  signMessageB64 : String → List Nat → String

/-- The mutable state the signing pipeline reads and writes: the
persisted `initialized` flag, the persisted used-nonce map, and the
in-memory rate-limit map. -/
structure BGState where
  initialized : Bool
  usedNonces : List (String × Nat)
  rateLimits : List (String × RateLimitEntry)

/-- `handleSignChallenge` from the background entry point, with
`Date.now()` passed as `now`.  The branch structure, error codes and
error messages follow the source: initialization check, rate limit on
the normalized request domain, Zod schema validation, nonce
registration, domain-binding check, expiry check (JS truthiness on
`expiresAt`), then key derivation and signing. -/
def handleSignChallenge (deps : SignDeps) (st : BGState) (domain : String)
    (challenge : Challenge) (now : Nat) : SignResult × BGState :=
  if st.initialized = false then
    (.failure ⟨.NOT_INITIALIZED, "Extension is not initialized"⟩, st)
  else
    let nd := normalizeDomain domain
    let rl := checkRateLimit st.rateLimits nd now
    let st₁ : BGState := { st with rateLimits := rl.snd }
    if rl.fst = false then
      (.failure ⟨.INTERNAL_ERROR, "Rate limit exceeded. Please try again later."⟩, st₁)
    else if challengeSchemaOk challenge = false then
      (.failure ⟨.INVALID_CHALLENGE, "Invalid challenge format"⟩, st₁)
    else
      let vr := validateAndStoreNonce st₁.usedNonces challenge.nonce now
      let st₂ : BGState := { st₁ with usedNonces := vr.snd }
      if vr.fst = false then
        (.failure ⟨.INVALID_CHALLENGE, "Challenge nonce has already been used"⟩, st₂)
      else if nd ≠ normalizeDomain challenge.domain then
        (.failure ⟨.DOMAIN_MISMATCH, "Challenge domain does not match request domain"⟩, st₂)
      else if challenge.expiresAt ≠ 0 && decide ((now : Int) > challenge.expiresAt) then
        (.failure ⟨.CHALLENGE_EXPIRED, "Challenge has expired"⟩, st₂)
      else
        match deps.keyPairFor nd with
        | none => (.failure ⟨.DECRYPTION_ERROR, "Failed to derive site key"⟩, st₂)
        | some kp =>
          (.success (deps.signChallengeB64 challenge kp.privateKey) kp.publicKeyBase64, st₂)

/-- `handleSignMessage` from the background entry point: initialization
check, rate limit on the normalized domain, key derivation, signing. -/
def handleSignMessage (deps : SignDeps) (st : BGState) (domain : String)
    (message : String) (now : Nat) : SignResult × BGState :=
  if st.initialized = false then
    (.failure ⟨.NOT_INITIALIZED, "Extension is not initialized"⟩, st)
  else
    let nd := normalizeDomain domain
    let rl := checkRateLimit st.rateLimits nd now
    let st₁ : BGState := { st with rateLimits := rl.snd }
    if rl.fst = false then
      (.failure ⟨.INTERNAL_ERROR, "Rate limit exceeded. Please try again later."⟩, st₁)
    else
      match deps.keyPairFor nd with
      | none => (.failure ⟨.DECRYPTION_ERROR, "Failed to derive site key"⟩, st₁)
      | some kp =>
        (.success (deps.signMessageB64 message kp.privateKey) kp.publicKeyBase64, st₁)

/-- The base64 alphabet used by `btoa`. -/
def b64Chars : List Char :=
  "ABCDEFGHIJKLMNOPQRSTUVWXYZabcdefghijklmnopqrstuvwxyz0123456789+/".toList

/-- The base64 digit of a 6-bit value. -/
def b64Char (n : Nat) : Char := b64Chars.getD n '='

/-- Standard base64 with padding over a byte list.  This is exactly
`btoa(String.fromCharCode(...bytes))` as used by `uint8ArrayToBase64`
and `generateDeviceKey`, since every byte is below 256. -/
def base64Encode : List Nat → String
  | [] => ""
  | [a] =>
    let n := a * 65536
    String.mk [b64Char (n / 262144 % 64), b64Char (n / 4096 % 64), '=', '=']
  | [a, b] =>
    let n := a * 65536 + b * 256
    String.mk [b64Char (n / 262144 % 64), b64Char (n / 4096 % 64), b64Char (n / 64 % 64), '=']
  | a :: b :: c :: rest =>
    let n := a * 65536 + b * 256 + c
    String.mk [b64Char (n / 262144 % 64), b64Char (n / 4096 % 64),
               b64Char (n / 64 % 64), b64Char (n % 64)] ++ base64Encode rest

/-- Index of a character in the base64 alphabet. -/
def b64Index (c : Char) : Nat := b64Chars.findIdx (· = c)

/-- Decoding of a padding-stripped base64 digit sequence. -/
def base64DecodeAux : List Char → List Nat
  | c₁ :: c₂ :: c₃ :: c₄ :: rest =>
    let n := b64Index c₁ * 262144 + b64Index c₂ * 4096 + b64Index c₃ * 64 + b64Index c₄
    n / 65536 % 256 :: n / 256 % 256 :: n % 256 :: base64DecodeAux rest
  | [c₁, c₂, c₃] =>
    let n := b64Index c₁ * 262144 + b64Index c₂ * 4096 + b64Index c₃ * 64
    [n / 65536 % 256, n / 256 % 256]
  | [c₁, c₂] =>
    let n := b64Index c₁ * 262144 + b64Index c₂ * 4096
    [n / 65536 % 256]
  | _ => []

/-- Base64 decoding (`atob` followed by `charCodeAt`, as in
`base64ToUint8Array`). -/
def base64Decode (s : String) : List Nat :=
  base64DecodeAux (s.toList.filter (· ≠ '='))

/-- Lowercase hex digit of a 4-bit value. -/
def hexDigit (n : Nat) : Char := "0123456789abcdef".toList.getD n '0'

/-- `b.toString(16).padStart(2, '0')` for a byte. -/
def byteToHex (b : Nat) : String := String.mk [hexDigit (b / 16 % 16), hexDigit (b % 16)]

/-- Hex rendering of a byte list, as used for the session id. -/
def toHexString (bs : List Nat) : String := String.join (bs.map byteToHex)

/-- UTF-8 bytes of one Unicode scalar value. -/
def utf8Char (c : Char) : List Nat :=
  let n := c.toNat
  if n < 128 then [n]
  else if n < 2048 then [192 + n / 64, 128 + n % 64]
  else if n < 65536 then [224 + n / 4096, 128 + n / 64 % 64, 128 + n % 64]
  else [240 + n / 262144, 128 + n / 4096 % 64, 128 + n / 64 % 64, 128 + n % 64]

/-- UTF-8 encoding of a string (`new TextEncoder().encode(...)`). -/
def utf8Encode (s : String) : List Nat := (s.toList.map utf8Char).flatten

/-- Hash algorithm selector passed to WebCrypto. -/
inductive HashAlg where
  | SHA256
  | SHA512
deriving DecidableEq, Repr

/-- The parameter record of a `crypto.subtle.deriveBits`/`deriveKey`
PBKDF2 invocation: hash variant, iteration count, salt bytes, and the
number of output bits. -/
structure PBKDF2Params where
  hash : HashAlg
  iterations : Nat
  salt : List Nat
  bits : Nat

/-- The platform cryptographic primitives the repository calls but does
not implement (WebCrypto and `String.prototype.normalize`), abstracted
as deterministic functions: `nfkd` is NFKD Unicode normalization,
`pbkdf2 p input` is the PBKDF2 output for password `input` under
parameters `p`, and `aesGcmEnc`/`aesGcmDec` are AES-GCM under
(key, iv). -/
structure CryptoPrims where
  nfkd : String → String
  pbkdf2 : PBKDF2Params → List Nat → List Nat
  aesGcmEnc : List Nat → List Nat → List Nat → List Nat
  aesGcmDec : List Nat → List Nat → List Nat → List Nat

/-- `PBKDF2_ITERATIONS` from `src/utils/crypto.ts`. -/
def PBKDF2_ITERATIONS : Nat := 210000

/-- `MASTER_KEY_SALT` from `src/utils/crypto.ts`. -/
def MASTER_KEY_SALT : String := "seedkey-auth-master-v1"

/-- `AES_PBKDF2_ITERATIONS` from `src/utils/crypto.ts`. -/
def AES_PBKDF2_ITERATIONS : Nat := 210000

/-- `deriveMasterKey` from `src/utils/crypto.ts`: NFKD-normalize the
seed phrase, UTF-8 encode it, and run PBKDF2 with SHA-512, 210,000
iterations, the fixed application salt, and 256 output bits. -/
def deriveMasterKey (p : CryptoPrims) (seedPhrase : String) : List Nat :=
  let normalizedSeed := p.nfkd seedPhrase
  p.pbkdf2 ⟨.SHA512, PBKDF2_ITERATIONS, utf8Encode MASTER_KEY_SALT, 256⟩
    (utf8Encode normalizedSeed)

/-- Persisted encrypted record (`EncryptedData` in `src/utils/types.ts`). -/
structure EncryptedData where
  iv : String
  data : String
  salt : String
deriving DecidableEq, Repr

/-- A value held by `browser.storage.local` in this model. -/
inductive StoredValue where
  | str (s : String)
  | ivData (iv data : String)
  | enc (e : EncryptedData)
  | flag (b : Bool)
deriving DecidableEq, Repr

/-- The `browser.storage.local` key-value store. -/
structure StorageState where
  entries : List (String × StoredValue)
deriving DecidableEq, Repr

/-- `browser.storage.local.get` for one key. -/
def StorageState.get (st : StorageState) (k : String) : Option StoredValue :=
  getA st.entries k

/-- `browser.storage.local.set` for one key. -/
def StorageState.set (st : StorageState) (k : String) (v : StoredValue) : StorageState :=
  ⟨setA st.entries k v⟩

/-- `generateDeviceKey` from `src/utils/deviceKey.ts` (the legacy
device-key store), with the `crypto.getRandomValues` output injected as
`keyBytes`: the fresh 32-byte key is base64 encoded with `btoa` and
written as-is to `browser.storage.local` under `seedkey:deviceKey`. -/
def generateDeviceKey (st : StorageState) (keyBytes : List Nat) : String × StorageState :=
  let deviceKey := base64Encode keyBytes
  (deviceKey, st.set "seedkey:deviceKey" (.str deviceKey))

/-- `getDeviceKey` from `src/utils/deviceKey.ts`: return the stored key
if present, else generate a new one. -/
def getDeviceKey (st : StorageState) (freshKeyBytes : List Nat) : String × StorageState :=
  match st.get "seedkey:deviceKey" with
  | some (.str existingKey) => (existingKey, st)
  | _ => generateDeviceKey st freshKeyBytes

/-- `encrypt` from `src/utils/crypto.ts`, with the random salt and IV
injected: derives an AES-256 key from the password via PBKDF2-SHA256
(210,000 iterations) and AES-GCM-encrypts the data; the derived key is
represented by its 256 key bits. -/
def cryptoEncrypt (p : CryptoPrims) (data : List Nat) (password : String)
    (salt iv : List Nat) : EncryptedData :=
  let encryptionKey := p.pbkdf2 ⟨.SHA256, AES_PBKDF2_ITERATIONS, salt, 256⟩ (utf8Encode password)
  ⟨base64Encode iv, base64Encode (p.aesGcmEnc encryptionKey iv data), base64Encode salt⟩

/-- Storage key of the encrypted master key blob:
`STORAGE_KEYS.encryptedMasterKey` in the storage module
(`utils/storage.ts`), written by `encryptedMasterKey.setValue`. -/
def STORAGE_ENC_MASTER_KEY : String := "seedkey:encryptedMasterKey"

/-- Storage key of the persisted initialization flag:
`STORAGE_KEYS.initialized` in the storage module (`utils/storage.ts`),
written by `isInitialized.setValue`. -/
def STORAGE_INITIALIZED : String := "seedkey:initialized"

/-- `saveMasterKey` from the background entry point, with the fresh
randomness injected: derives the master key from the seed phrase, gets
the (legacy) device key via `getDeviceKey`, encrypts the master key
with it, persists the blob via `encryptedMasterKey.setValue` and flips
the persisted `initialized` flag via `isInitialized.setValue` (both
typed accessors of `utils/storage.ts` over `browser.storage.local`). -/
def saveMasterKey (p : CryptoPrims) (st : StorageState) (seedPhrase : String)
    (freshDeviceKeyBytes encSalt encIv : List Nat) : StorageState :=
  let masterKey := deriveMasterKey p seedPhrase
  let dk := getDeviceKey st freshDeviceKeyBytes
  let encrypted := cryptoEncrypt p masterKey dk.fst encSalt encIv
  ((dk.snd.set STORAGE_ENC_MASTER_KEY (.enc encrypted)).set STORAGE_INITIALIZED (.flag true))

/-- Storage key of the session-encrypted device key
(`STORAGE_KEYS.encryptedDeviceKey`). -/
def SK_ENC_DEVICE_KEY : String := "seedkey:v1:encryptedDeviceKey"

/-- Storage key of the device-key salt (`STORAGE_KEYS.deviceKeySalt`). -/
def SK_DEVICE_KEY_SALT : String := "seedkey:v1:deviceKeySalt"

/-- The state of the secure-storage module (`src/utils/secureStorage.ts`):
the in-memory session key and session id, the in-memory cached device
key, and `browser.storage.local`.  The non-extractable `CryptoKey`
session key is represented by its key bytes. -/
structure SecureState where
  sessionKey : Option (List Nat)
  sessionId : Option String
  cachedDeviceKey : Option (List Nat)
  storage : StorageState
deriving DecidableEq, Repr

/-- `initializeSession`, with the `crypto.getRandomValues` session-id
bytes and the generated AES key injected: sets the session id to the
hex rendering of the id bytes and installs the fresh session key. -/
def initializeSession (st : SecureState) (idBytes keyBytes : List Nat) : SecureState :=
  { st with sessionId := some (toHexString idBytes), sessionKey := some keyBytes }

/-- `hasActiveSession`: both the session key and the session id exist. -/
def hasActiveSession (st : SecureState) : Bool :=
  st.sessionKey.isSome && st.sessionId.isSome

/-- `destroySession`: clears the session key and session id (and
nothing else — in particular the cached device key stays). -/
def destroySession (st : SecureState) : SecureState :=
  { st with sessionKey := none, sessionId := none }

/-- `generateSecureDeviceKey`, with the fresh device key, salt and IV
injected: throws `Session not initialized` without a session key,
otherwise AES-GCM-encrypts the device key under the session key, stores
`{iv, data}` and the salt, and caches the plaintext key in memory. -/
def generateSecureDeviceKey (p : CryptoPrims) (st : SecureState)
    (deviceKey salt iv : List Nat) : Except String SecureState :=
  match st.sessionKey with
  | none => .error "Session not initialized"
  | some sk =>
    let encryptedDeviceKey := p.aesGcmEnc sk iv deviceKey
    let storage :=
      (st.storage.set SK_ENC_DEVICE_KEY
        (.ivData (base64Encode iv) (base64Encode encryptedDeviceKey))).set
        SK_DEVICE_KEY_SALT (.str (base64Encode salt))
    .ok { st with storage := storage, cachedDeviceKey := some deviceKey }

/-- `getSecureDeviceKey`, with the randomness for a possible first-run
generation injected: returns the cached key if one is present (before
any session check, as in the source), throws `Session not initialized`
without a session key, generates a fresh key when no encrypted blob is
stored, and otherwise decrypts and caches the stored blob. -/
def getSecureDeviceKey (p : CryptoPrims) (st : SecureState)
    (freshKey freshSalt freshIv : List Nat) : Except String (List Nat × SecureState) :=
  match st.cachedDeviceKey with
  | some k => .ok (k, st)
  | none =>
    match st.sessionKey with
    | none => .error "Session not initialized"
    | some sk =>
      match st.storage.get SK_ENC_DEVICE_KEY with
      | some (.ivData ivB64 dataB64) =>
        let decrypted := p.aesGcmDec sk (base64Decode ivB64) (base64Decode dataB64)
        .ok (decrypted, { st with cachedDeviceKey := some decrypted })
      | _ =>
        match generateSecureDeviceKey p st freshKey freshSalt freshIv with
        | .error e => .error e
        | .ok st₂ => .ok (freshKey, st₂)

/-- Splitting a character list at every occurrence of a separator
character, keeping empty segments (the behavior of `split(' ')` /
`String.splitOn " "`: repeated separators yield empty words). -/
def splitOnChar (sep : Char) : List Char → List (List Char)
  | [] => [[]]
  | c :: rest =>
    let r := splitOnChar sep rest
    if c = sep then [] :: r
    else
      match r with
      | [] => [[c]]
      | w :: ws => (c :: w) :: ws

/-- The word list of a phrase: split on single spaces, with no
collapsing of repeated separators. -/
def wordsOf (phrase : String) : List String :=
  (splitOnChar ' ' phrase.toList).map String.mk

/-- Modelled from the spec: `validateMnemonic` of the `@scure/bip39`
dependency is not part of this repository's sources.  Per §4.1 it
checks the word count (exactly 12 or 24), every word's presence in the
wordlist, and checksum correctness, splitting on single spaces without
collapsing repeated separators; the checksum computation is abstracted
as a predicate on the word list. -/
def validateMnemonic (wordlist : List String) (checksumOk : List String → Bool)
    (mnemonic : String) : Bool :=
  let words := wordsOf mnemonic
  (words.length = 12 || words.length = 24) &&
  words.all (fun w => wordlist.contains w) &&
  checksumOk words

/-- `isValidSeedPhrase` from `src/utils/crypto.ts`: delegates to
`validateMnemonic` on the unmodified input (the `trim`/`split` in the
source only feeds a debug log). -/
def isValidSeedPhrase (wordlist : List String) (checksumOk : List String → Bool)
    (seedPhrase : String) : Bool :=
  validateMnemonic wordlist checksumOk seedPhrase

/-- Concrete well-behaved instantiation of the abstract platform
primitives, used to evaluate the model on closed inputs. -/
def evalPrims : CryptoPrims where
  nfkd := fun s => s
  pbkdf2 := fun p input => (List.range (p.bits / 8)).map (fun i => (i + p.iterations + input.length) % 256)
  aesGcmEnc := fun key iv data => data.map (fun b => (b + key.length + iv.length) % 256)
  aesGcmDec := fun key iv data => data.map (fun b => (b + 256 - (key.length + iv.length) % 256) % 256)

/-- Concrete instantiation of the abstract signing tail, used to
evaluate the pipeline on closed inputs. -/
def evalDeps : SignDeps where
  keyPairFor := fun d => some ⟨[1], [2], "pk-" ++ d⟩
  signChallengeB64 := fun c _ => "sig-" ++ c.nonce
  signMessageB64 := fun m _ => "sig-" ++ m

/-- Looking up the key just assigned yields the assigned value. -/
theorem getA_setA_self {α : Type} (m : List (String × α)) (k : String) (v : α) :
    getA (setA m k v) k = some v := by
  induction m with
  | nil => simp [setA, getA]
  | cons p rest ih =>
    obtain ⟨k₂, v₂⟩ := p
    by_cases h : k₂ = k
    · simp [setA, getA, h]
    · simp [setA, getA, h, ih]

/-- C2.  Replay rejection: if `validateAndStoreNonce` accepts a nonce at
time `now₁` (with `now₁` a positive clock value, as `Date.now()` always
is), then a second call for the same nonce on the resulting map, made
within the 10-minute window and with no intervening eviction, returns
`false`. -/
theorem validateAndStoreNonce_replay_rejected (m : List (String × Nat)) (nonce : String)
    (now₁ now₂ : Nat) (h₁ : 0 < now₁)
    (hacc : (validateAndStoreNonce m nonce now₁).fst = true)
    (_hwin : now₂ - now₁ < NONCE_EXPIRY_MS) :
    (validateAndStoreNonce (validateAndStoreNonce m nonce now₁).snd nonce now₂).fst = false := by
  by_cases h : (getA m nonce).getD 0 ≠ 0
  · simp [validateAndStoreNonce, h] at hacc
  · have hsnd : (validateAndStoreNonce m nonce now₁).snd
        = setA (pruneNonces m now₁ 0) nonce now₁ := by
      simp [validateAndStoreNonce, h]
    rw [hsnd]
    simp [validateAndStoreNonce, getA_setA_self, Nat.pos_iff_ne_zero.mp h₁]

/-- Witness for C2 at a concrete input. -/
theorem validateAndStoreNonce_replay_rejected_witness :
    (validateAndStoreNonce (validateAndStoreNonce [] "n1" 5).snd "n1" 17).fst = false :=
  validateAndStoreNonce_replay_rejected [] "n1" 5 17 (by decide) (by decide) (by decide)

/-- Inside the current window, `checkRateLimit` rejects once the count
has reached the cap and otherwise increments it in place. -/
theorem checkRateLimit_in_window (m : List (String × RateLimitEntry)) (d : String)
    (now : Nat) (e : RateLimitEntry) (hm : getA m d = some e)
    (hw : now - e.windowStart ≤ RATE_LIMIT_WINDOW_MS) :
    checkRateLimit m d now =
      if e.count ≥ MAX_REQUESTS_PER_WINDOW then (false, m)
      else (true, setA m d ⟨e.count + 1, e.windowStart⟩) := by
  unfold checkRateLimit
  rw [hm]
  simp [Nat.not_lt.mpr hw]

/-- Iterating `checkRateLimit` inside one window: starting from a state
whose entry for `d` holds count `min k 30` and window start `t₀`, the
`i`-th further call (0-based) succeeds exactly when `k + i < 30`. -/
theorem runRateCalls_in_window (d : String) (t₀ : Nat) :
    ∀ (rest : List Nat) (m : List (String × RateLimitEntry)) (k : Nat),
      1 ≤ k →
      getA m d = some ⟨min k MAX_REQUESTS_PER_WINDOW, t₀⟩ →
      (∀ t ∈ rest, t - t₀ ≤ RATE_LIMIT_WINDOW_MS) →
      (runRateCalls m d rest).fst
        = (List.range rest.length).map (fun i => decide (k + i < MAX_REQUESTS_PER_WINDOW)) := by
  intro rest
  induction rest with
  | nil => intro m k _ _ _; simp [runRateCalls]
  | cons t ts ih =>
    intro m k hk hm hin
    have ht : t - t₀ ≤ RATE_LIMIT_WINDOW_MS := hin t (by simp)
    have hstep := checkRateLimit_in_window m d t ⟨min k MAX_REQUESTS_PER_WINDOW, t₀⟩ hm ht
    by_cases hk30 : k < MAX_REQUESTS_PER_WINDOW
    · have hmin : min k MAX_REQUESTS_PER_WINDOW = k := Nat.min_eq_left (Nat.le_of_lt hk30)
      have hcap : ¬ (min k MAX_REQUESTS_PER_WINDOW ≥ MAX_REQUESTS_PER_WINDOW) := by
        rw [hmin]; exact Nat.not_le.mpr hk30
      rw [hmin] at hstep
      simp only [ge_iff_le, Nat.not_le.mpr hk30, if_false] at hstep
      have hnext : getA (setA m d ⟨k + 1, t₀⟩) d
          = some ⟨min (k + 1) MAX_REQUESTS_PER_WINDOW, t₀⟩ := by
        rw [getA_setA_self, Nat.min_eq_left hk30]
      have htail := ih (setA m d ⟨k + 1, t₀⟩) (k + 1) (Nat.le_succ_of_le hk)
        hnext (fun u hu => hin u (List.mem_cons_of_mem t hu))
      simp only [runRateCalls, hstep, htail, List.length_cons]
      rw [List.range_succ_eq_map, List.map_cons, List.map_map]
      refine congrArg₂ List.cons (by simp [hk30]) (List.map_congr_left ?_)
      intro i _
      simp only [Function.comp_apply]
      exact decide_eq_decide.mpr (by omega)
    · have hmin : min k MAX_REQUESTS_PER_WINDOW = MAX_REQUESTS_PER_WINDOW :=
        Nat.min_eq_right (Nat.le_of_not_lt hk30)
      rw [hmin] at hstep
      simp only [ge_iff_le, le_refl, if_true] at hstep
      have hnext : getA m d = some ⟨min (k + 1) MAX_REQUESTS_PER_WINDOW, t₀⟩ := by
        rw [hm, hmin, Nat.min_eq_right (by omega)]
      have htail := ih m (k + 1) (Nat.le_succ_of_le hk)
        hnext (fun u hu => hin u (List.mem_cons_of_mem t hu))
      simp only [runRateCalls, hstep, htail, List.length_cons]
      rw [List.range_succ_eq_map, List.map_cons, List.map_map]
      refine congrArg₂ List.cons (by simp [Nat.le_of_not_lt hk30]) (List.map_congr_left ?_)
      intro i _
      simp only [Function.comp_apply]
      exact decide_eq_decide.mpr (by omega)

/-- C4.  Rate-limiter window semantics: a missing window or one that
started strictly more than 60 seconds ago yields a fresh window with
count 1 and `true`; a run of calls within one window succeeds on
exactly the first 30 calls and fails from the 31st on; after the window
rolls over the next call succeeds again (the second conjunct applied to
the rolled-over entry). -/
theorem checkRateLimit_window_semantics :
    (∀ (m : List (String × RateLimitEntry)) (d : String) (now : Nat),
      getA m d = none →
      checkRateLimit m d now = (true, setA m d ⟨1, now⟩))
    ∧ (∀ (m : List (String × RateLimitEntry)) (d : String) (now : Nat) (e : RateLimitEntry),
      getA m d = some e → now - e.windowStart > RATE_LIMIT_WINDOW_MS →
      checkRateLimit m d now = (true, setA m d ⟨1, now⟩))
    ∧ (∀ (d : String) (t₀ : Nat) (rest : List Nat) (m : List (String × RateLimitEntry)),
      getA m d = none →
      (∀ t ∈ rest, t - t₀ ≤ RATE_LIMIT_WINDOW_MS) →
      (runRateCalls m d (t₀ :: rest)).fst
        = (List.range (rest.length + 1)).map (fun i => decide (i < MAX_REQUESTS_PER_WINDOW))) := by
  refine ⟨?_, ?_, ?_⟩
  · intro m d now hm
    unfold checkRateLimit
    rw [hm]
  · intro m d now e hm hw
    unfold checkRateLimit
    rw [hm]
    simp [hw]
  · intro d t₀ rest m hm hin
    have hfirst : checkRateLimit m d t₀ = (true, setA m d ⟨1, t₀⟩) := by
      unfold checkRateLimit; rw [hm]
    have hnext : getA (setA m d ⟨1, t₀⟩) d
        = some ⟨min 1 MAX_REQUESTS_PER_WINDOW, t₀⟩ := by
      rw [getA_setA_self]
      norm_num [MAX_REQUESTS_PER_WINDOW]
    have htail := runRateCalls_in_window d t₀ rest (setA m d ⟨1, t₀⟩) 1 le_rfl hnext hin
    simp only [runRateCalls, hfirst, htail]
    rw [List.range_succ_eq_map, List.map_cons, List.map_map]
    refine congrArg₂ List.cons (by decide) (List.map_congr_left ?_)
    intro i _
    simp only [Function.comp_apply]
    exact decide_eq_decide.mpr (by omega)

/-- Witness for C4: 31 calls in one window succeed exactly 30 times. -/
theorem checkRateLimit_window_semantics_witness :
    (runRateCalls [] "example.com" (0 :: List.replicate 31 100)).fst
      = (List.range 32).map (fun i => decide (i < MAX_REQUESTS_PER_WINDOW)) :=
  checkRateLimit_window_semantics.2.2 "example.com" 0 (List.replicate 31 100) []
    (by decide) (by decide)

/-- Counterexample to C1 as stated: a challenge whose embedded domain
(`bank.com`) differs from the request domain (`evil.com`) but whose
format is invalid (action outside the Zod enum) fails with
`INVALID_CHALLENGE`, not `DOMAIN_MISMATCH` — the schema check precedes
the domain-binding check. -/
theorem signChallenge_domain_mismatch_counterexample :
    normalizeDomain "evil.com" ≠ normalizeDomain "bank.com"
    ∧ ((handleSignChallenge evalDeps ⟨true, [], []⟩ "evil.com"
        ⟨"n1", 1, "bank.com", "badaction", 1⟩ 1000).fst).errCode
        = some .INVALID_CHALLENGE
    ∧ some ErrorCode.INVALID_CHALLENGE ≠ some ErrorCode.DOMAIN_MISMATCH := by
  decide

/-- C1 (amended).  Anti-phishing domain binding: on an initialized
extension, when the rate limit passes, the challenge is schema-valid
and its nonce fresh, a normalized-domain mismatch between the request
domain and the challenge's embedded domain makes `handleSignChallenge`
fail with `DOMAIN_MISMATCH` and return no signature, regardless of the
challenge's expiry or the signing backend. -/
theorem signChallenge_domain_mismatch_amended (deps : SignDeps) (st : BGState)
    (d : String) (ch : Challenge) (now : Nat)
    (hinit : st.initialized = true)
    (hrl : (checkRateLimit st.rateLimits (normalizeDomain d) now).fst = true)
    (hschema : challengeSchemaOk ch = true)
    (hfresh : (getA st.usedNonces ch.nonce).getD 0 = 0)
    (hmm : normalizeDomain d ≠ normalizeDomain ch.domain) :
    (handleSignChallenge deps st d ch now).fst
      = .failure ⟨.DOMAIN_MISMATCH, "Challenge domain does not match request domain"⟩ := by
  unfold handleSignChallenge
  simp [hinit, hrl, hschema, validateAndStoreNonce, hfresh, hmm]

/-- Witness for the amended C1 at a concrete input. -/
theorem signChallenge_domain_mismatch_amended_witness :
    (handleSignChallenge evalDeps ⟨true, [], []⟩ "evil.com"
        ⟨"n1", 1, "bank.com", "authenticate", 99999⟩ 5).fst
      = .failure ⟨.DOMAIN_MISMATCH, "Challenge domain does not match request domain"⟩ :=
  signChallenge_domain_mismatch_amended evalDeps ⟨true, [], []⟩ "evil.com"
    ⟨"n1", 1, "bank.com", "authenticate", 99999⟩ 5
    (by decide) (by decide) (by decide) (by decide) (by decide)

/-- Counterexample to C5 as stated: with the window for `example.com`
already at the 30-request cap, both signing entry points reject with
error code `INTERNAL_ERROR`, not `RATE_LIMIT_EXCEEDED` (the
`RATE_LIMIT_EXCEEDED` member of `ErrorCodes` is never used by the
handlers). -/
theorem rateLimit_error_code_counterexample :
    ((handleSignChallenge evalDeps ⟨true, [], [("example.com", ⟨30, 100⟩)]⟩ "example.com"
        ⟨"n1", 1, "example.com", "authenticate", 99999999⟩ 100).fst).errCode
      = some .INTERNAL_ERROR
    ∧ ((handleSignChallenge evalDeps ⟨true, [], [("example.com", ⟨30, 100⟩)]⟩ "example.com"
        ⟨"n1", 1, "example.com", "authenticate", 99999999⟩ 100).fst).errCode
      ≠ some .RATE_LIMIT_EXCEEDED
    ∧ ((handleSignMessage evalDeps ⟨true, [], [("example.com", ⟨30, 100⟩)]⟩ "example.com"
        "hello" 100).fst).errCode
      ≠ some .RATE_LIMIT_EXCEEDED := by
  decide

/-- C5 (amended).  Rate-limit error code: whenever the per-domain
rate-limit check fails during `handleSignChallenge` or
`handleSignMessage` on an initialized extension, the operation returns
a typed error whose code is `INTERNAL_ERROR`, with the message
`Rate limit exceeded. Please try again later.`. -/
theorem rateLimit_error_code_amended (deps : SignDeps) (st : BGState)
    (d : String) (ch : Challenge) (msg : String) (now : Nat)
    (hinit : st.initialized = true)
    (hrl : (checkRateLimit st.rateLimits (normalizeDomain d) now).fst = false) :
    (handleSignChallenge deps st d ch now).fst
      = .failure ⟨.INTERNAL_ERROR, "Rate limit exceeded. Please try again later."⟩
    ∧ (handleSignMessage deps st d msg now).fst
      = .failure ⟨.INTERNAL_ERROR, "Rate limit exceeded. Please try again later."⟩ := by
  constructor
  · unfold handleSignChallenge
    simp [hinit, hrl]
  · unfold handleSignMessage
    simp [hinit, hrl]

/-- Witness for the amended C5 at a concrete input. -/
theorem rateLimit_error_code_amended_witness :
    (handleSignChallenge evalDeps ⟨true, [], [("example.com", ⟨30, 100⟩)]⟩ "example.com"
        ⟨"n1", 1, "example.com", "authenticate", 99999999⟩ 100).fst
      = .failure ⟨.INTERNAL_ERROR, "Rate limit exceeded. Please try again later."⟩
    ∧ (handleSignMessage evalDeps ⟨true, [], [("example.com", ⟨30, 100⟩)]⟩ "example.com"
        "hello" 100).fst
      = .failure ⟨.INTERNAL_ERROR, "Rate limit exceeded. Please try again later."⟩ :=
  rateLimit_error_code_amended evalDeps ⟨true, [], [("example.com", ⟨30, 100⟩)]⟩
    "example.com" ⟨"n1", 1, "example.com", "authenticate", 99999999⟩ "hello" 100
    (by decide) (by decide)

/-- C10.  Nonce consumption is not rolled back on later pipeline
failures: when `handleSignChallenge` passes the initialization, rate
limit, schema and nonce-freshness stages but then rejects the call with
`DOMAIN_MISMATCH` or `CHALLENGE_EXPIRED`, the challenge's nonce has
nevertheless been recorded in the consumed-nonce map of that call's
final state, so a subsequent `handleSignChallenge` call on that state
presenting the same nonce — even one that is initialized, within the
rate limit and schema-valid — fails with `INVALID_CHALLENGE` (replay). -/
theorem signChallenge_nonce_not_rolled_back (deps : SignDeps) (st : BGState)
    (d : String) (ch : Challenge) (now₁ : Nat) (d₂ : String) (ch₂ : Challenge) (now₂ : Nat)
    (hinit : st.initialized = true)
    (hrl : (checkRateLimit st.rateLimits (normalizeDomain d) now₁).fst = true)
    (hschema : challengeSchemaOk ch = true)
    (hfresh : (getA st.usedNonces ch.nonce).getD 0 = 0)
    (hnow : 0 < now₁)
    (hfail : normalizeDomain d ≠ normalizeDomain ch.domain
        ∨ (normalizeDomain d = normalizeDomain ch.domain
           ∧ ch.expiresAt ≠ 0 ∧ (now₁ : Int) > ch.expiresAt))
    (hn : ch₂.nonce = ch.nonce)
    (hrl₂ : (checkRateLimit (handleSignChallenge deps st d ch now₁).snd.rateLimits
        (normalizeDomain d₂) now₂).fst = true)
    (hschema₂ : challengeSchemaOk ch₂ = true) :
    ((handleSignChallenge deps st d ch now₁).fst.errCode = some .DOMAIN_MISMATCH
      ∨ (handleSignChallenge deps st d ch now₁).fst.errCode = some .CHALLENGE_EXPIRED)
    ∧ getA (handleSignChallenge deps st d ch now₁).snd.usedNonces ch.nonce = some now₁
    ∧ (handleSignChallenge deps (handleSignChallenge deps st d ch now₁).snd d₂ ch₂ now₂).fst
      = .failure ⟨.INVALID_CHALLENGE, "Challenge nonce has already been used"⟩ := by
  have hne₁ : now₁ ≠ 0 := Nat.pos_iff_ne_zero.mp hnow
  rcases hfail with hmm | ⟨heq, hezero, hexp⟩
  · have hcall : handleSignChallenge deps st d ch now₁
        = (.failure ⟨.DOMAIN_MISMATCH, "Challenge domain does not match request domain"⟩,
           ⟨true, setA (pruneNonces st.usedNonces now₁ 0) ch.nonce now₁,
            (checkRateLimit st.rateLimits (normalizeDomain d) now₁).snd⟩) := by
      unfold handleSignChallenge
      simp [hinit, hrl, hschema, validateAndStoreNonce, hfresh, hmm]
    rw [hcall] at hrl₂ ⊢
    refine ⟨Or.inl rfl, getA_setA_self _ _ _, ?_⟩
    unfold handleSignChallenge
    simp only [BGState.rateLimits] at hrl₂
    simp [hrl₂, hschema₂, validateAndStoreNonce, hn, getA_setA_self, hne₁]
  · have hcall : handleSignChallenge deps st d ch now₁
        = (.failure ⟨.CHALLENGE_EXPIRED, "Challenge has expired"⟩,
           ⟨true, setA (pruneNonces st.usedNonces now₁ 0) ch.nonce now₁,
            (checkRateLimit st.rateLimits (normalizeDomain d) now₁).snd⟩) := by
      unfold handleSignChallenge
      simp [hinit, hrl, hschema, validateAndStoreNonce, hfresh, heq, hezero, hexp, heq ▸ hrl]
    rw [hcall] at hrl₂ ⊢
    refine ⟨Or.inr rfl, getA_setA_self _ _ _, ?_⟩
    unfold handleSignChallenge
    simp only [BGState.rateLimits] at hrl₂
    simp [hrl₂, hschema₂, validateAndStoreNonce, hn, getA_setA_self, hne₁]

/-- Witness for C10 at a concrete input: a domain-mismatch rejection
consumes the nonce, and replaying it from the matching domain fails. -/
theorem signChallenge_nonce_not_rolled_back_witness :
    ((handleSignChallenge evalDeps ⟨true, [], []⟩ "evil.com"
        ⟨"n1", 1, "bank.com", "authenticate", 99999⟩ 5).fst.errCode
        = some ErrorCode.DOMAIN_MISMATCH
      ∨ (handleSignChallenge evalDeps ⟨true, [], []⟩ "evil.com"
        ⟨"n1", 1, "bank.com", "authenticate", 99999⟩ 5).fst.errCode
        = some ErrorCode.CHALLENGE_EXPIRED)
    ∧ getA (handleSignChallenge evalDeps ⟨true, [], []⟩ "evil.com"
        ⟨"n1", 1, "bank.com", "authenticate", 99999⟩ 5).snd.usedNonces "n1" = some 5
    ∧ (handleSignChallenge evalDeps
        (handleSignChallenge evalDeps ⟨true, [], []⟩ "evil.com"
          ⟨"n1", 1, "bank.com", "authenticate", 99999⟩ 5).snd "bank.com"
        ⟨"n1", 2, "bank.com", "authenticate", 99999⟩ 6).fst
      = .failure ⟨.INVALID_CHALLENGE, "Challenge nonce has already been used"⟩ :=
  signChallenge_nonce_not_rolled_back evalDeps ⟨true, [], []⟩ "evil.com"
    ⟨"n1", 1, "bank.com", "authenticate", 99999⟩ 5 "bank.com"
    ⟨"n1", 2, "bank.com", "authenticate", 99999⟩ 6
    (by decide) (by decide) (by decide) (by decide) (by decide)
    (Or.inl (by decide)) (by decide) (by decide) (by decide)

/-- C3 (evaluation at the failing input).  Saving the master secret on
a fresh installation routes through the legacy `getDeviceKey`, which
persists the freshly generated device key under `seedkey:deviceKey` as
its bare base64 encoding: the stored string is fully determined by the
key bytes, involves no session key or cipher, and the plaintext key is
recovered from storage by base64 decoding alone — while the save
completes normally (the persisted `initialized` flag under
`seedkey:initialized` is flipped to true). -/
theorem saveMasterKey_persists_plaintext_deviceKey :
    (saveMasterKey evalPrims ⟨[]⟩ "abandon ability able" (List.range 32) [5] [6]).get
        "seedkey:deviceKey"
      = some (.str (base64Encode (List.range 32)))
    ∧ base64Decode (base64Encode (List.range 32)) = List.range 32
    ∧ (saveMasterKey evalPrims ⟨[]⟩ "abandon ability able" (List.range 32) [5] [6]).get
        STORAGE_INITIALIZED
      = some (.flag true) := by
  decide

set_option maxRecDepth 10000 in
/-- C6 (evaluation at the failing input).  With 1001 fresh, unexpired
nonces already stored (reachable by 1001 accepted calls within ten
minutes), accepting one more nonce leaves 1001 live entries — above the
claimed 1000-entry bound — and the entry evicted by the cap is the most
recently consumed pre-existing nonce `n1000`, while the oldest entry
`n0` is retained. -/
theorem nonceStore_exceeds_cap_and_evicts_newest :
    (validateAndStoreNonce ((List.range 1001).map (fun i => ("n" ++ toString i, i + 1)))
        "x" 2000).fst = true
    ∧ (validateAndStoreNonce ((List.range 1001).map (fun i => ("n" ++ toString i, i + 1)))
        "x" 2000).snd.length = 1001
    ∧ getA (validateAndStoreNonce ((List.range 1001).map (fun i => ("n" ++ toString i, i + 1)))
        "x" 2000).snd "n1000" = none
    ∧ getA (validateAndStoreNonce ((List.range 1001).map (fun i => ("n" ++ toString i, i + 1)))
        "x" 2000).snd "n0" = some 1
    ∧ getA (validateAndStoreNonce ((List.range 1001).map (fun i => ("n" ++ toString i, i + 1)))
        "x" 2000).snd "x" = some 2000 := by
  decide

/-- C7.  Mnemonic validation: `isValidSeedPhrase` returns `true` iff
the phrase splits on single spaces into exactly 12 or 24 words, every
word is in the wordlist, and the checksum holds; and because internal
whitespace is not collapsed, any phrase whose split contains an empty
word — as repeated internal separators produce — fails validation
(given that the wordlist has no empty word). -/
theorem isValidSeedPhrase_spec (wl : List String) (cs : List String → Bool)
    (phrase : String) (hwl : "" ∉ wl) :
    (isValidSeedPhrase wl cs phrase = true ↔
      ((wordsOf phrase).length = 12 ∨ (wordsOf phrase).length = 24)
      ∧ (∀ w ∈ wordsOf phrase, wl.contains w = true)
      ∧ cs (wordsOf phrase) = true)
    ∧ ("" ∈ wordsOf phrase → isValidSeedPhrase wl cs phrase = false) := by
  constructor
  · simp [isValidSeedPhrase, validateMnemonic, List.all_eq_true, and_assoc]
  · intro hmem
    have hall : ((wordsOf phrase).all fun w => wl.contains w) = false := by
      rw [List.all_eq_false]
      exact ⟨"", hmem, by simp [hwl]⟩
    simp only [isValidSeedPhrase, validateMnemonic, hall, Bool.and_false, Bool.false_and]

/-- Witness for C7 at a concrete input: a doubled internal separator
makes validation fail. -/
theorem isValidSeedPhrase_spec_witness :
    "" ∈ wordsOf "abandon  ability"
    ∧ isValidSeedPhrase ["abandon", "ability"] (fun _ => true) "abandon  ability" = false :=
  ⟨by decide,
    (isValidSeedPhrase_spec ["abandon", "ability"] (fun _ => true) "abandon  ability"
      (by decide)).2 (by decide)⟩

/-- C8.  Master-secret derivation: `deriveMasterKey` NFKD-normalizes
the phrase and applies PBKDF2 with SHA-512, 210,000 iterations and the
fixed salt `seedkey-auth-master-v1`, requesting 256 bits; for any
PBKDF2 primitive honoring the requested output size the result is 32
bytes; and the derivation is deterministic in the phrase. -/
theorem deriveMasterKey_spec (p : CryptoPrims) (phrase : String)
    (hlen : ∀ (q : PBKDF2Params) (input : List Nat), (p.pbkdf2 q input).length = q.bits / 8) :
    deriveMasterKey p phrase
      = p.pbkdf2 ⟨.SHA512, 210000, utf8Encode "seedkey-auth-master-v1", 256⟩
          (utf8Encode (p.nfkd phrase))
    ∧ (deriveMasterKey p phrase).length = 32
    ∧ ∀ phrase₂, phrase₂ = phrase → deriveMasterKey p phrase₂ = deriveMasterKey p phrase := by
  refine ⟨rfl, ?_, ?_⟩
  · unfold deriveMasterKey
    rw [hlen]
    rfl
  · intro phrase₂ h
    rw [h]


/-- Witness for C8 at a concrete input. -/
theorem deriveMasterKey_spec_witness :
    deriveMasterKey evalPrims "abandon ability"
      = evalPrims.pbkdf2 ⟨.SHA512, 210000, utf8Encode "seedkey-auth-master-v1", 256⟩
          (utf8Encode (evalPrims.nfkd "abandon ability"))
    ∧ (deriveMasterKey evalPrims "abandon ability").length = 32
    ∧ ∀ phrase₂, phrase₂ = "abandon ability" →
        deriveMasterKey evalPrims phrase₂ = deriveMasterKey evalPrims "abandon ability" :=
  deriveMasterKey_spec evalPrims "abandon ability"
    (fun q input => by simp [evalPrims])

/-- The vault state reached by: fresh start, `initializeSession`,
`generateSecureDeviceKey` (caching the device key in memory), then
`destroySession` — which clears the session but not the cache. -/
def vaultScenarioState : SecureState :=
  match generateSecureDeviceKey evalPrims
      (initializeSession ⟨none, none, none, ⟨[]⟩⟩ [1, 2] [9, 9]) [7, 7, 7] [3] [4] with
  | .ok st => destroySession st
  | .error _ => ⟨none, none, none, ⟨[]⟩⟩

/-- Counterexample to C9 as stated: in the reachable state
`vaultScenarioState` no session is active, yet `getSecureDeviceKey`
succeeds and returns the cached device key, because the cache check
precedes the session check and `destroySession` does not clear the
cached device key. -/
theorem getSecureDeviceKey_cached_after_destroy_counterexample :
    hasActiveSession vaultScenarioState = false
    ∧ (getSecureDeviceKey evalPrims vaultScenarioState [] [] []).toOption
        = some ([7, 7, 7], vaultScenarioState)
    ∧ (generateSecureDeviceKey evalPrims
        (initializeSession ⟨none, none, none, ⟨[]⟩⟩ [1, 2] [9, 9])
        [7, 7, 7] [3] [4]).toOption.isSome = true := by
  decide

/-- C9 (amended).  Vault session precondition: every call to
`getSecureDeviceKey` made while no session is active and no device key
is cached in memory fails with the `Session not initialized` error and
returns no device key; a device key cached by a previous session is
still returned after `destroySession`, since the cache check precedes
the session check. -/
theorem getSecureDeviceKey_no_session_amended (p : CryptoPrims) (st : SecureState)
    (fk fs fi : List Nat)
    (hcache : st.cachedDeviceKey = none) (hsess : st.sessionKey = none) :
    getSecureDeviceKey p st fk fs fi = .error "Session not initialized" := by
  unfold getSecureDeviceKey
  rw [hcache, hsess]

/-- Witness for the amended C9 at a concrete input. -/
theorem getSecureDeviceKey_no_session_amended_witness :
    getSecureDeviceKey evalPrims ⟨none, none, none, ⟨[]⟩⟩ [1] [2] [3]
      = .error "Session not initialized" :=
  getSecureDeviceKey_no_session_amended evalPrims ⟨none, none, none, ⟨[]⟩⟩ [1] [2] [3] rfl rfl

end SeedKey
